import Mathlib

/-
Verification of the DNS-validated ACM certificate client
(src/create_and_validate_acm_cert/ACM.py) against its specification.

The Python class DNSValidatedACMCertClient is shallowly embedded below.
External collaborators (the boto3 ACM / Route53 clients and the tldextract
library) are treated as black boxes: they appear as explicit function
parameters, or, where the specification fixes their contract, as definitions
marked "Modelled from the spec".
-/

namespace ACM

/-! ## Definitions

### Python string splitting

Python's `str.split(sep)` for a one-character separator, embedded on the
character list of a string.  `"a/b//c".split("/") = ["a","b","","c"]`,
`"abc".split("/") = ["abc"]`, `"".split("/") = [""]`. -/

def splitChar (c : Char) : List Char → List (List Char)
  | [] => [[]]
  | x :: xs =>
    if x = c then [] :: splitChar c xs
    else (x :: (splitChar c xs).headD []) :: (splitChar c xs).tail

/-- Embeds the nested helper of get_hosted_zone_id:
`get_zone_id_from_id_string(zone_id_string) = zone_id_string.split('/')[-1]`.
Python's `[-1]` is the last element; `str.split` never returns an empty
list. -/
def get_zone_id_from_id_string (zone_id_string : String) : String :=
  ⟨(splitChar '/' zone_id_string.data).getLastD []⟩

/-- A Route53 hosted zone as used by the client: the fields `Name` and `Id` of
the dictionaries returned by list_hosted_zones. -/
structure HostedZone where
  Name : String
  Id : String
deriving DecidableEq, Repr

/-- Embeds the nested helper `get_domain_from_host`: joins the `domain` and
`suffix` parts of the tldextract result with a dot.  The tldextract library is
external, so the extraction itself is a parameter. -/
def get_domain_from_host (extract : String → String × String)
    (validation_dns_record : String) : String :=
  (extract validation_dns_record).1 ++ "." ++ (extract validation_dns_record).2

/-- Embeds the nested helper `domain_matches_hosted_zone`:
`zone.get('Name') == "%s." % domain`. -/
def domain_matches_hosted_zone (domain : String) (zone : HostedZone) : Bool :=
  zone.Name == domain ++ "."

/-- Embeds `get_hosted_zone_id`: reduce the record name to its domain, filter
the cached zone list for zones whose Name is the domain with a trailing dot,
and take `target_record[0]`.  Python raises IndexError when the filtered list
is empty; the embedding returns none there. -/
def get_hosted_zone_id (extract : String → String × String)
    (route53_zones : List HostedZone) (validation_dns_record : String) :
    Option String :=
  match route53_zones.filter
      (domain_matches_hosted_zone (get_domain_from_host extract validation_dns_record)) with
  | [] => none
  | z :: _ => some (get_zone_id_from_id_string z.Id)

/-- Modelled from the spec: the external tldextract library (not part of this
repository) splits a fully-qualified host name public-suffix-aware into
subdomain, domain and suffix parts.  This model covers hosts whose public
suffix is their final label (such as `.com` names): the suffix is the last
dot-separated label and the domain the one before it. -/
def simple_tld_extract (host : String) : String × String :=
  match (splitChar '.' host.data).reverse with
  | suffix :: dom :: _ => (⟨dom⟩, ⟨suffix⟩)
  | [l] => (⟨l⟩, "")
  | [] => ("", "")

/-! ### Certificate request -/

/-- An error signalled by the ACM client itself (boto raises an exception when
a call is rejected at the API level). -/
inductive CAError where
  | clientError (msg : String)
deriving DecidableEq, Repr

/-- A response dictionary returned by an AWS client call, reduced to the parts
the client reads: the HTTP status code of the response metadata and, for
request_certificate, the CertificateArn field. -/
structure AWSResponse where
  httpStatusCode : Nat
  certificateArn : Option String
deriving DecidableEq, Repr

/-- Modelled from the spec: `aws_helpers.response_succeeded` (the aws_helpers
module is not under src/).  The success signal is a boolean derived from the
response's HTTP-status metadata; any non-2xx is treated as failure. -/
def response_succeeded (response : AWSResponse) : Bool :=
  200 ≤ response.httpStatusCode && response.httpStatusCode < 300

/-- Embeds `get_certificate_arn`: `response.get('CertificateArn')`. -/
def get_certificate_arn (response : AWSResponse) : Option String :=
  response.certificateArn

/-- The keyword arguments `request_certificate` passes to
`acm_client.request_certificate`: SubjectAlternativeNames is present only on
the `len(subject_alternative_names) > 0` branch. -/
structure CertRequestParams where
  DomainName : String
  ValidationMethod : String
  SubjectAlternativeNames : Option (List String)
deriving DecidableEq, Repr

/-- The request payload built by `request_certificate` from the domain and the
subject alternative names. -/
def request_certificate_params (domain : String)
    (subject_alternative_names : List String) : CertRequestParams :=
  if subject_alternative_names.length > 0 then
    { DomainName := domain
      ValidationMethod := "DNS"
      SubjectAlternativeNames := some subject_alternative_names }
  else
    { DomainName := domain
      ValidationMethod := "DNS"
      SubjectAlternativeNames := none }

/-- Embeds `request_certificate`.  The ACM client is a black box mapping the
request payload to either a raised error (propagated, as there is no
try/except) or a response; on a response that passes response_succeeded the
ARN is returned, otherwise the function falls off its end and returns None. -/
def request_certificate (acm_client : CertRequestParams → Except CAError AWSResponse)
    (domain : String) (subject_alternative_names : List String) :
    Except CAError (Option String) := do
  let response ← acm_client (request_certificate_params domain subject_alternative_names)
  if response_succeeded response then
    return get_certificate_arn response
  else
    return none

/-- A concrete ACM response whose HTTP status signals failure. -/
def rejectResponse : AWSResponse :=
  { httpStatusCode := 500, certificateArn := some "arn:aws:acm:us-east-1:1:certificate/x" }

/-- A concrete ACM client that returns (without raising) a non-success
response. -/
def rejectingClient : CertRequestParams → Except CAError AWSResponse :=
  fun _ => Except.ok rejectResponse

/-- A concrete ACM client whose call raises an error. -/
def erroringClient : CertRequestParams → Except CAError AWSResponse :=
  fun _ => Except.error (CAError.clientError "AccessDenied")

/-! ### Waiting for validation -/

/-- Certificate status as returned by `get_certificate_status`. -/
inductive CertStatus where
  | pending
  | issued
  | failed
  | other (s : String)
deriving DecidableEq, Repr

/-- Outcome of the wait loop, instrumented with the number of
get_certificate_status calls (polls) and time.sleep calls (sleeps) that were
made: either the timeout exception was raised or the loop exited because the
status left PENDING_VALIDATION. -/
inductive WaitOutcome where
  | timeoutError (timeout polls sleeps : Nat)
  | done (status : CertStatus) (polls sleeps : Nat)
deriving DecidableEq, Repr

/-- One state of the while loop of `wait_for_certificate_validation`: the
current status, the elapsed_time variable, and the instrumentation counters.
`statuses n` is the status returned by the (n+1)-th poll.  The fuel argument
only bounds the number of iterations that are unfolded: a `some` result is the
outcome the Python loop reaches. -/
def waitLoop (statuses : Nat → CertStatus) (sleep_time timeout : Nat) :
    Nat → CertStatus → Nat → Nat → Nat → Option WaitOutcome
  | 0, _, _, _, _ => none
  | fuel + 1, status, elapsed_time, polls, sleeps =>
    if status = CertStatus.pending then
      if elapsed_time > timeout then
        some (WaitOutcome.timeoutError timeout polls sleeps)
      else
        waitLoop statuses sleep_time timeout fuel (statuses polls)
          (elapsed_time + sleep_time) (polls + 1) (sleeps + 1)
    else
      some (WaitOutcome.done status polls sleeps)

/-- Embeds `wait_for_certificate_validation`: one initial poll, then the while
loop with elapsed_time starting at 0. -/
def wait_for_certificate_validation (statuses : Nat → CertStatus)
    (sleep_time timeout fuel : Nat) : Option WaitOutcome :=
  waitLoop statuses sleep_time timeout fuel (statuses 0) 0 1 0

/-! ### Building the DNS change set -/

/-- The ResourceRecord dictionary inside a DomainValidationOption of an ACM
describe_certificate response: fields Type, Name and Value. -/
structure ResourceRecord where
  rrType : String
  rrName : String
  rrValue : String
deriving DecidableEq, Repr

/-- Embeds `get_resource_record_data`: the (type, name, value) triple of a
ResourceRecord. -/
def get_resource_record_data (r : ResourceRecord) : String × String × String :=
  (r.rrType, r.rrName, r.rrValue)

/-- The ResourceRecordSet dictionary of a Route53 change. -/
structure ResourceRecordSet where
  rsName : String
  rsType : String
  rsValues : List String
  rsTTL : Nat
deriving DecidableEq, Repr

/-- A Route53 change dictionary: an Action and a ResourceRecordSet. -/
structure Change where
  action : String
  resourceRecordSet : ResourceRecordSet
deriving DecidableEq, Repr

/-- Embeds `create_dns_record_set`: from a validation record, build an UPSERT
change whose record set carries the record's name, type and single value, and
a TTL of 300. -/
def create_dns_record_set (record : ResourceRecord) : Change :=
  { action := "UPSERT"
    resourceRecordSet :=
      { rsName := (get_resource_record_data record).2.1
        rsType := (get_resource_record_data record).1
        rsValues := [(get_resource_record_data record).2.2]
        rsTTL := 300 } }

/-- Embeds `remove_duplicate_upsert_records`: walk the list, appending each
element to the accumulator unless it is already there. -/
def remove_duplicate_upsert_records {α : Type} [DecidableEq α]
    (original_list : List α) : List α :=
  original_list.foldl (fun unique_list obj =>
    if obj ∈ unique_list then unique_list else unique_list ++ [obj]) []

/-- The change set `create_domain_validation_records` submits: one change per
validation record, then duplicates removed. -/
def buildChangeSet (records : List ResourceRecord) : List Change :=
  remove_duplicate_upsert_records (records.map create_dns_record_set)

/-- Specification-side description of first-occurrence deduplication: keep
each element's first occurrence, deleting its later duplicates. -/
def dedupKeepFirst {α : Type} [DecidableEq α] : List α → List α
  | [] => []
  | x :: l => x :: dedupKeepFirst (l.filter (fun y => y ≠ x))
termination_by l => l.length
decreasing_by
  simp only [List.length_cons]
  exact Nat.lt_succ_of_le (List.length_filter_le _ _)

/-- The (type, name, values) key of a change, matching the triple a change was
built from. -/
def changeKey (c : Change) : String × String × List String :=
  (c.resourceRecordSet.rsType, c.resourceRecordSet.rsName, c.resourceRecordSet.rsValues)

/-- The (type, name, values) key `create_dns_record_set` gives a record. -/
def recordKey (r : ResourceRecord) : String × String × List String :=
  (r.rrType, r.rrName, [r.rrValue])

/-! ### Submitting the change set -/

/-- What the client prints for one submitted change: the success line with the
record name, or the failure line with the response. -/
inductive R53Log where
  | created (record_name : String)
  | failed (response : AWSResponse)
deriving DecidableEq, Repr

/-- The per-change loop body of `create_domain_validation_records`, applied to
the deduplicated change list.  `submit zid change` is the black-box
change_resource_record_sets call.  Returns the trace of submissions actually
made — (change, response, printed line) in order — and whether the loop ran to
completion (false when a zone lookup raised and aborted the loop). -/
def submitChanges (extract : String → String × String)
    (route53_zones : List HostedZone) (submit : String → Change → AWSResponse) :
    List Change → List (Change × AWSResponse × R53Log) × Bool
  | [] => ([], true)
  | change :: rest =>
    match get_hosted_zone_id extract route53_zones change.resourceRecordSet.rsName with
    | none => ([], false)
    | some hosted_zone_id =>
      let response := submit hosted_zone_id change
      let line :=
        if response_succeeded response then
          R53Log.created change.resourceRecordSet.rsName
        else
          R53Log.failed response
      let tail := submitChanges extract route53_zones submit rest
      ((change, response, line) :: tail.1, tail.2)

/-- Embeds `create_domain_validation_records`: build the change per validation
record, remove duplicates, then submit each remaining change. -/
def create_domain_validation_records (extract : String → String × String)
    (route53_zones : List HostedZone) (submit : String → Change → AWSResponse)
    (domain_validation_records : List ResourceRecord) :
    List (Change × AWSResponse × R53Log) × Bool :=
  submitChanges extract route53_zones submit
    (remove_duplicate_upsert_records
      (domain_validation_records.map create_dns_record_set))

/-- A Route53 client call that always reports failure (HTTP 500), used to
exercise the best-effort submission loop. -/
def failingSubmit : String → Change → AWSResponse :=
  fun _ _ => { httpStatusCode := 500, certificateArn := none }

/-- A first concrete validation record in the example.com zone. -/
def validationRecordA : ResourceRecord :=
  { rrType := "CNAME", rrName := "_aaa.example.com", rrValue := "_v1.acm-validations.aws." }

/-- A second concrete validation record in the example.com zone. -/
def validationRecordB : ResourceRecord :=
  { rrType := "CNAME", rrName := "_bbb.example.com", rrValue := "_v2.acm-validations.aws." }

/-! ## Lemmas about the string splitting -/

theorem splitChar_nil (c : Char) : splitChar c [] = [[]] := rfl

theorem splitChar_cons_self (c : Char) (xs : List Char) :
    splitChar c (c :: xs) = [] :: splitChar c xs := by
  simp [splitChar]

theorem splitChar_cons_ne (c x : Char) (xs : List Char) (hx : ¬ x = c) :
    splitChar c (x :: xs) =
      (x :: (splitChar c xs).headD []) :: (splitChar c xs).tail := by
  simp [splitChar, hx]

theorem splitChar_ne_nil (c : Char) (l : List Char) : splitChar c l ≠ [] := by
  cases l with
  | nil => simp [splitChar]
  | cons x xs =>
    by_cases hx : x = c
    · rw [hx, splitChar_cons_self]
      simp
    · rw [splitChar_cons_ne c x xs hx]
      simp

theorem splitChar_of_not_mem (c : Char) (l : List Char) (h : c ∉ l) :
    splitChar c l = [l] := by
  induction l with
  | nil => rfl
  | cons x xs ih =>
    simp only [List.mem_cons, not_or] at h
    have hx : ¬ x = c := fun hx => h.1 hx.symm
    rw [splitChar_cons_ne c x xs hx, ih h.2]
    simp

theorem length_splitChar_append (c : Char) (s t : List Char) :
    2 ≤ (splitChar c (s ++ c :: t)).length := by
  induction s with
  | nil =>
    rw [List.nil_append, splitChar_cons_self]
    have h1 : 0 < (splitChar c t).length :=
      List.length_pos.mpr (splitChar_ne_nil c t)
    simp only [List.length_cons]
    omega
  | cons x xs ih =>
    rw [List.cons_append]
    by_cases hx : x = c
    · rw [hx, splitChar_cons_self]
      have h1 : 0 < (splitChar c (xs ++ c :: t)).length :=
        List.length_pos.mpr (splitChar_ne_nil c _)
      simp only [List.length_cons]
      omega
    · rw [splitChar_cons_ne c x _ hx]
      cases h : splitChar c (xs ++ c :: t) with
      | nil => exact absurd h (splitChar_ne_nil c _)
      | cons a as =>
        rw [h] at ih
        simp only [h, List.length_cons, List.tail_cons, List.headD_cons] at ih ⊢
        omega

/-- The last chunk of a split at a separator occurrence is the last chunk of the
split of what follows that occurrence. -/
theorem getLastD_splitChar_append (c : Char) (s t : List Char) :
    (splitChar c (s ++ c :: t)).getLastD [] = (splitChar c t).getLastD [] := by
  induction s with
  | nil =>
    rw [List.nil_append, splitChar_cons_self]
    cases h : splitChar c t with
    | nil => exact absurd h (splitChar_ne_nil c t)
    | cons a as => simp [List.getLastD_cons]
  | cons x xs ih =>
    rw [List.cons_append]
    by_cases hx : x = c
    · rw [hx, splitChar_cons_self]
      cases h : splitChar c (xs ++ c :: t) with
      | nil => exact absurd h (splitChar_ne_nil c _)
      | cons a as =>
        rw [h] at ih
        simpa [List.getLastD_cons] using ih
    · rw [splitChar_cons_ne c x _ hx]
      cases h : splitChar c (xs ++ c :: t) with
      | nil => exact absurd h (splitChar_ne_nil c _)
      | cons a as =>
        rw [h] at ih
        have hlen := length_splitChar_append c xs t
        rw [h] at hlen
        cases as with
        | nil => simp at hlen
        | cons b bs => simpa [List.getLastD_cons] using ih

/-! ## Lemmas about the deduplication -/

theorem dedupKeepFirst_cons {α : Type} [DecidableEq α] (x : α) (l : List α) :
    dedupKeepFirst (x :: l) = x :: dedupKeepFirst (l.filter (fun y => y ≠ x)) := by
  rw [dedupKeepFirst]

/-- The accumulator-based duplicate removal of the source equals
first-occurrence deduplication of the part of the list not already in the
accumulator. -/
theorem foldl_remove_duplicate {α : Type} [DecidableEq α] (l : List α) :
    ∀ acc : List α,
      List.foldl (fun unique_list obj =>
          if obj ∈ unique_list then unique_list else unique_list ++ [obj]) acc l
        = acc ++ dedupKeepFirst (l.filter (fun x => x ∉ acc)) := by
  induction l with
  | nil => intro acc; simp [dedupKeepFirst]
  | cons x l ih =>
    intro acc
    rw [List.foldl_cons, List.filter_cons]
    by_cases hx : x ∈ acc
    · rw [if_pos hx]
      have hd : (decide (x ∉ acc)) = false := by simp [hx]
      rw [hd, if_neg (by simp : ¬ (false = true)), ih acc]
    · rw [if_neg hx]
      have hd : (decide (x ∉ acc)) = true := by simp [hx]
      rw [hd, if_pos rfl, ih (acc ++ [x]), dedupKeepFirst_cons]
      have hfeq : List.filter (fun y => y ∉ acc ++ [x]) l
          = List.filter (fun y => y ≠ x) (List.filter (fun y => y ∉ acc) l) := by
        rw [List.filter_filter]
        apply List.filter_congr
        intro y _
        have hiff : (y ∉ acc ++ [x]) ↔ ((y ≠ x) ∧ (y ∉ acc)) := by
          simp only [List.mem_append, List.mem_singleton, not_or]
          tauto
        calc (decide (y ∉ acc ++ [x]))
            = decide ((y ≠ x) ∧ (y ∉ acc)) := by rw [decide_eq_decide]; exact hiff
          _ = (decide (y ≠ x) && decide (y ∉ acc)) := by simp
      rw [hfeq, List.append_assoc, List.singleton_append]

/-- remove_duplicate_upsert_records is exactly first-occurrence
deduplication. -/
theorem remove_duplicate_upsert_records_eq {α : Type} [DecidableEq α]
    (original_list : List α) :
    remove_duplicate_upsert_records original_list = dedupKeepFirst original_list := by
  rw [remove_duplicate_upsert_records, foldl_remove_duplicate, List.nil_append]
  congr 1
  apply List.filter_eq_self.mpr
  intro a _
  simp

theorem mem_dedupKeepFirst {α : Type} [DecidableEq α] (a : α) (l : List α) :
    a ∈ dedupKeepFirst l ↔ a ∈ l := by
  induction l using dedupKeepFirst.induct with
  | case1 => simp [dedupKeepFirst]
  | case2 x l ih =>
    rw [dedupKeepFirst_cons]
    by_cases hax : a = x
    · subst hax; simp
    · simp only [List.mem_cons, ih, List.mem_filter]
      constructor
      · rintro (h | ⟨h, _⟩)
        · exact Or.inl h
        · exact Or.inr h
      · rintro (h | h)
        · exact Or.inl h
        · exact Or.inr ⟨h, by simpa using hax⟩

theorem nodup_dedupKeepFirst {α : Type} [DecidableEq α] (l : List α) :
    (dedupKeepFirst l).Nodup := by
  induction l using dedupKeepFirst.induct with
  | case1 => simp [dedupKeepFirst]
  | case2 x l ih =>
    rw [dedupKeepFirst_cons]
    refine List.nodup_cons.mpr ⟨?_, ih⟩
    rw [mem_dedupKeepFirst]
    intro hmem
    have := (List.mem_filter.mp hmem).2
    simp at this

theorem dedupKeepFirst_sublist {α : Type} [DecidableEq α] (l : List α) :
    (dedupKeepFirst l).Sublist l := by
  induction l using dedupKeepFirst.induct with
  | case1 => simp [dedupKeepFirst]
  | case2 x l ih =>
    rw [dedupKeepFirst_cons]
    exact List.Sublist.cons₂ x (ih.trans (List.filter_sublist l))

/-- First-occurrence deduplication commutes with mapping a function that is
injective on the list's elements. -/
theorem map_dedupKeepFirst {α β : Type} [DecidableEq α] [DecidableEq β]
    (f : α → β) (l : List α)
    (hinj : ∀ x ∈ l, ∀ y ∈ l, f x = f y → x = y) :
    (dedupKeepFirst l).map f = dedupKeepFirst (l.map f) := by
  induction l using dedupKeepFirst.induct with
  | case1 => simp [dedupKeepFirst]
  | case2 x l ih =>
    rw [dedupKeepFirst_cons, List.map_cons, List.map_cons, dedupKeepFirst_cons]
    have hfilter : (l.map f).filter (fun y => y ≠ f x)
        = (l.filter (fun y => y ≠ x)).map f := by
      rw [List.filter_map]
      congr 1
      apply List.filter_congr
      intro y hy
      show (decide (f y ≠ f x)) = decide (y ≠ x)
      rw [decide_eq_decide]
      constructor
      · intro h hyx; exact h (by rw [hyx])
      · intro h hfy
        exact h (hinj y (List.mem_cons_of_mem x hy) x (List.mem_cons_self x l) hfy)
    congr 1
    rw [hfilter]
    exact ih (fun a ha b hb =>
      hinj a (List.mem_cons_of_mem x (List.mem_of_mem_filter ha))
        b (List.mem_cons_of_mem x (List.mem_of_mem_filter hb)))

/-! ## Lemmas about the wait loop -/

/-- Unfolding equation for one iteration of the wait loop. -/
theorem waitLoop_succ (statuses : Nat → CertStatus) (sleep_time timeout fuel : Nat)
    (status : CertStatus) (elapsed_time polls sleeps : Nat) :
    waitLoop statuses sleep_time timeout (fuel + 1) status elapsed_time polls sleeps
      = if status = CertStatus.pending then
          (if elapsed_time > timeout then
            some (WaitOutcome.timeoutError timeout polls sleeps)
          else
            waitLoop statuses sleep_time timeout fuel (statuses polls)
              (elapsed_time + sleep_time) (polls + 1) (sleeps + 1))
        else some (WaitOutcome.done status polls sleeps) := rfl

/-! ## Claim C2 -/

/-- Claim C2, counterexample: with status permanently PENDING_VALIDATION,
timeout=10 and sleep_time=5, the claimed outcome — the timeout error raised
after the second poll — is not what the code produces: the error is raised
after the fourth poll (and third sleep), since the strict `elapsed_time >
timeout` check only fires once elapsed_time reaches 15. -/
theorem C2_counterexample :
    wait_for_certificate_validation (fun _ => CertStatus.pending) 5 10 6
        = some (WaitOutcome.timeoutError 10 4 3) ∧
    wait_for_certificate_validation (fun _ => CertStatus.pending) 5 10 6
        ≠ some (WaitOutcome.timeoutError 10 2 1) ∧
    wait_for_certificate_validation (fun _ => CertStatus.pending) 5 10 6
        ≠ some (WaitOutcome.timeoutError 10 2 2) := by
  refine ⟨rfl, by decide, by decide⟩

/-- Claim C2 (amended): if the certificate status is permanently
PENDING_VALIDATION, wait_for_certificate_validation with timeout=10 and
sleep_time=5 raises the validation-timeout error after the fourth poll of the
status, having slept three times (15s of cumulated sleep). -/
theorem C2_amended_timeout_after_fourth_poll (statuses : Nat → CertStatus)
    (h : ∀ n, statuses n = CertStatus.pending) (fuel : Nat) (hfuel : 4 ≤ fuel) :
    wait_for_certificate_validation statuses 5 10 fuel
      = some (WaitOutcome.timeoutError 10 4 3) := by
  obtain ⟨f, rfl⟩ : ∃ f, fuel = f + 4 := ⟨fuel - 4, by omega⟩
  rw [wait_for_certificate_validation, h 0]
  rw [show f + 4 = (f + 3) + 1 by omega, waitLoop_succ]
  rw [if_pos rfl, if_neg (by omega), h 1]
  rw [show f + 3 = (f + 2) + 1 by omega, waitLoop_succ]
  rw [if_pos rfl, if_neg (by omega), h 2]
  rw [show f + 2 = (f + 1) + 1 by omega, waitLoop_succ]
  rw [if_pos rfl, if_neg (by omega), h 3]
  rw [waitLoop_succ, if_pos rfl, if_pos (by omega)]

/-- Witness for the amended C2 at the constant-pending status sequence. -/
theorem C2_amended_witness :
    wait_for_certificate_validation (fun _ => CertStatus.pending) 5 10 4
      = some (WaitOutcome.timeoutError 10 4 3) :=
  C2_amended_timeout_after_fourth_poll (fun _ => CertStatus.pending)
    (fun _ => rfl) 4 (by omega)

/-! ## Claim C8 -/

/-- Claim C8: if successive status polls return PENDING_VALIDATION,
PENDING_VALIDATION, ISSUED, wait_for_certificate_validation with sleep_time=5
and timeout=600 returns successfully after exactly two sleeps (and three
polls). -/
theorem C8_issued_after_two_sleeps (statuses : Nat → CertStatus)
    (h0 : statuses 0 = CertStatus.pending) (h1 : statuses 1 = CertStatus.pending)
    (h2 : statuses 2 = CertStatus.issued) (fuel : Nat) (hfuel : 3 ≤ fuel) :
    wait_for_certificate_validation statuses 5 600 fuel
      = some (WaitOutcome.done CertStatus.issued 3 2) := by
  obtain ⟨f, rfl⟩ : ∃ f, fuel = f + 3 := ⟨fuel - 3, by omega⟩
  rw [wait_for_certificate_validation, h0]
  rw [show f + 3 = (f + 2) + 1 by omega, waitLoop_succ]
  rw [if_pos rfl, if_neg (by omega), h1]
  rw [show f + 2 = (f + 1) + 1 by omega, waitLoop_succ]
  rw [if_pos rfl, if_neg (by omega), h2]
  rw [waitLoop_succ, if_neg (by decide)]

/-- Witness for C8 at a concrete status sequence pending, pending, issued. -/
theorem C8_witness :
    wait_for_certificate_validation
      (fun n => if n < 2 then CertStatus.pending else CertStatus.issued) 5 600 3
      = some (WaitOutcome.done CertStatus.issued 3 2) :=
  C8_issued_after_two_sleeps
    (fun n => if n < 2 then CertStatus.pending else CertStatus.issued)
    rfl rfl rfl 3 (by omega)

/-! ## Claim C4 -/

/-- Claim C4: the request payload carries a SubjectAlternativeNames field iff
the subject-alternative-names list is non-empty; with an empty list the
request holds only the primary domain and the DNS validation method. -/
theorem C4_san_field_iff_nonempty (domain : String) (sans : List String) :
    ((request_certificate_params domain sans).SubjectAlternativeNames ≠ none
        ↔ sans ≠ []) ∧
    ((request_certificate_params domain sans).SubjectAlternativeNames = some sans
        ∨ (request_certificate_params domain sans).SubjectAlternativeNames = none) ∧
    (request_certificate_params domain []
        = { DomainName := domain, ValidationMethod := "DNS"
            SubjectAlternativeNames := none }) ∧
    (request_certificate_params domain sans).DomainName = domain ∧
    (request_certificate_params domain sans).ValidationMethod = "DNS" := by
  cases sans with
  | nil => simp [request_certificate_params]
  | cons a l =>
    refine ⟨?_, ?_, ?_, ?_, ?_⟩ <;>
      simp [request_certificate_params]

/-- Witness for C4 at concrete inputs with and without alternative names. -/
theorem C4_witness :
    (request_certificate_params "www.example.com" ["api.example.com"]).SubjectAlternativeNames
        ≠ none ∧
    request_certificate_params "www.example.com" []
      = { DomainName := "www.example.com", ValidationMethod := "DNS"
          SubjectAlternativeNames := none } :=
  ⟨(C4_san_field_iff_nonempty "www.example.com" ["api.example.com"]).1.mpr
      (by simp),
   (C4_san_field_iff_nonempty "www.example.com" []).2.2.1⟩

/-! ## Claim C6 -/

/-- Claim C6: a record name whose extracted domain matches no cached hosted
zone makes get_hosted_zone_id fail (no zone id is returned; Python raises at
target_record[0], the spec's ZoneNotFoundError). -/
theorem C6_no_match_fails (extract : String → String × String)
    (zones : List HostedZone) (record : String)
    (h : ∀ z ∈ zones, ¬ z.Name = get_domain_from_host extract record ++ ".") :
    get_hosted_zone_id extract zones record = none := by
  rw [get_hosted_zone_id]
  have hnil : zones.filter
      (domain_matches_hosted_zone (get_domain_from_host extract record)) = [] := by
    rw [List.filter_eq_nil_iff]
    intro z hz
    simp only [domain_matches_hosted_zone, beq_eq_false_iff_ne, ne_eq,
      Bool.not_eq_true, beq_iff_eq]
    exact h z hz
  rw [hnil]

/-- Witness for C6: the cached zones hold only other.com., the record is under
example.com. -/
theorem C6_witness :
    get_hosted_zone_id simple_tld_extract [⟨"other.com.", "/hostedzone/Z2OT"⟩]
      "www.example.com" = none :=
  C6_no_match_fails simple_tld_extract [⟨"other.com.", "/hostedzone/Z2OT"⟩]
    "www.example.com" (by decide)

/-! ## Claim C7 -/

/-- Claim C7: when more than one cached zone matches the record's domain with
a trailing dot, get_hosted_zone_id returns the zone id of the first matching
zone in listing order. -/
theorem C7_first_match_wins (extract : String → String × String)
    (zones : List HostedZone) (record : String) (z : HostedZone)
    (rest : List HostedZone)
    (hfilter : zones.filter
        (domain_matches_hosted_zone (get_domain_from_host extract record))
        = z :: rest)
    (_hmulti : rest ≠ []) :
    get_hosted_zone_id extract zones record
      = some (get_zone_id_from_id_string z.Id) := by
  rw [get_hosted_zone_id, hfilter]

/-- Witness for C7: two cached zones both named example.com.; the first one's
id is returned. -/
theorem C7_witness :
    get_hosted_zone_id simple_tld_extract
      [⟨"example.com.", "/hostedzone/ZFIRST"⟩, ⟨"example.com.", "/hostedzone/ZSECOND"⟩]
      "www.example.com" = some "ZFIRST" :=
  C7_first_match_wins simple_tld_extract
    [⟨"example.com.", "/hostedzone/ZFIRST"⟩, ⟨"example.com.", "/hostedzone/ZSECOND"⟩]
    "www.example.com" ⟨"example.com.", "/hostedzone/ZFIRST"⟩
    [⟨"example.com.", "/hostedzone/ZSECOND"⟩] (by decide) (by decide)

/-! ## Claim C10 -/

/-- Claim C10: for a matched zone, the returned identifier is the substring of
the zone's Id after its last '/' (so "/hostedzone/Z123" yields "Z123"), and an
Id without '/' is returned unchanged. -/
theorem C10_zone_id_after_last_slash :
    (∀ s t : String, '/' ∉ t.data →
        get_zone_id_from_id_string (s ++ "/" ++ t) = t) ∧
    (∀ s : String, '/' ∉ s.data → get_zone_id_from_id_string s = s) ∧
    get_zone_id_from_id_string "/hostedzone/Z123" = "Z123" := by
  refine ⟨?_, ?_, by decide⟩
  · intro s t ht
    rw [get_zone_id_from_id_string]
    have hdata : (s ++ "/" ++ t).data = s.data ++ '/' :: t.data := by
      have h1 : (s ++ "/" ++ t).data = (s.data ++ ['/']) ++ t.data := rfl
      rw [h1, List.append_assoc, List.singleton_append]
    rw [hdata, getLastD_splitChar_append, splitChar_of_not_mem _ _ ht]
    cases t with
    | mk dt => rfl
  · intro s hs
    rw [get_zone_id_from_id_string, splitChar_of_not_mem _ _ hs]
    cases s with
    | mk ds => rfl

/-- Witness for C10 on "/hostedzone/Z123" and on a slash-free id string. -/
theorem C10_witness :
    get_zone_id_from_id_string ("/hostedzone" ++ "/" ++ "Z123") = "Z123" ∧
    get_zone_id_from_id_string "Z123abc" = "Z123abc" :=
  ⟨C10_zone_id_after_last_slash.1 "/hostedzone" "Z123" (by decide),
   C10_zone_id_after_last_slash.2.1 "Z123abc" (by decide)⟩

/-! ## Claim C5 -/

/-- Claim C5: get_hosted_zone_id first reduces the record name to its
registrable domain (via the extraction) and then selects from the cached zone
list a zone whose Name is that domain with a trailing dot — any returned id
comes from such a zone, and a matching zone guarantees an id is returned; in
particular with zones example.com. and other.com. and record www.example.com
it returns the id of the example.com. zone. -/
theorem C5_resolve_zone_for_record :
    (∀ (extract : String → String × String) (zones : List HostedZone)
        (record zid : String),
      get_hosted_zone_id extract zones record = some zid →
      ∃ z, z ∈ zones ∧ z.Name = get_domain_from_host extract record ++ "." ∧
        zid = get_zone_id_from_id_string z.Id) ∧
    (∀ (extract : String → String × String) (zones : List HostedZone)
        (record : String),
      (∃ z ∈ zones, z.Name = get_domain_from_host extract record ++ ".") →
      ∃ zid, get_hosted_zone_id extract zones record = some zid) ∧
    get_hosted_zone_id simple_tld_extract
      [⟨"example.com.", "/hostedzone/Z1EX"⟩, ⟨"other.com.", "/hostedzone/Z2OT"⟩]
      "www.example.com" = some "Z1EX" := by
  refine ⟨?_, ?_, by decide⟩
  · intro extract zones record zid h
    rw [get_hosted_zone_id] at h
    cases hf : zones.filter
        (domain_matches_hosted_zone (get_domain_from_host extract record)) with
    | nil => rw [hf] at h; exact absurd h (by simp)
    | cons z rest =>
      rw [hf] at h
      have hz : z ∈ zones ∧
          domain_matches_hosted_zone (get_domain_from_host extract record) z = true :=
        List.mem_filter.mp (hf ▸ List.mem_cons_self z rest)
      refine ⟨z, hz.1, ?_, ?_⟩
      · have := hz.2
        rw [domain_matches_hosted_zone, beq_iff_eq] at this
        exact this
      · cases h
        rfl
  · intro extract zones record hex
    obtain ⟨z, hz, hname⟩ := hex
    rw [get_hosted_zone_id]
    cases hf : zones.filter
        (domain_matches_hosted_zone (get_domain_from_host extract record)) with
    | nil =>
      exfalso
      have : z ∈ zones.filter
          (domain_matches_hosted_zone (get_domain_from_host extract record)) :=
        List.mem_filter.mpr ⟨hz, by rw [domain_matches_hosted_zone, beq_iff_eq]; exact hname⟩
      rw [hf] at this
      exact absurd this (List.not_mem_nil z)
    | cons w rest => exact ⟨get_zone_id_from_id_string w.Id, rfl⟩

/-- Witness for C5: the selected zone for www.example.com among example.com.
and other.com. is the example.com. zone, and its id parses to Z1EX. -/
theorem C5_witness :
    ∃ z, z ∈ [(⟨"example.com.", "/hostedzone/Z1EX"⟩ : HostedZone),
        ⟨"other.com.", "/hostedzone/Z2OT"⟩] ∧
      z.Name = get_domain_from_host simple_tld_extract "www.example.com" ++ "." ∧
      "Z1EX" = get_zone_id_from_id_string z.Id :=
  C5_resolve_zone_for_record.1 simple_tld_extract
    [⟨"example.com.", "/hostedzone/Z1EX"⟩, ⟨"other.com.", "/hostedzone/Z2OT"⟩]
    "www.example.com" "Z1EX" (by decide)

/-! ## Claim C3 -/

/-- Claim C3, counterexample: when the ACM call returns a response that does
not signal success, request_certificate does not fail with any error — it
returns ok None (the Python function falls off its end).  The claimed
immediate CARequestError is therefore not raised on this path. -/
theorem C3_counterexample :
    request_certificate rejectingClient "www.example.com" [] = Except.ok none := by
  rfl

/-- Claim C3 (amended): an error raised by the ACM client call itself
propagates to the caller immediately; a returned response that does not signal
success makes request_certificate return no certificate handle (None), without
raising. -/
theorem C3_amended_request_certificate
    (acm_client : CertRequestParams → Except CAError AWSResponse)
    (domain : String) (subject_alternative_names : List String) :
    (∀ e, acm_client (request_certificate_params domain subject_alternative_names)
        = Except.error e →
      request_certificate acm_client domain subject_alternative_names
        = Except.error e) ∧
    (∀ r, acm_client (request_certificate_params domain subject_alternative_names)
        = Except.ok r →
      response_succeeded r = false →
      request_certificate acm_client domain subject_alternative_names
        = Except.ok none) := by
  constructor
  · intro e he
    rw [request_certificate]
    rw [he]
    rfl
  · intro r hr hfail
    rw [request_certificate]
    rw [hr]
    show (if response_succeeded r then Except.ok (get_certificate_arn r)
        else Except.ok none) = Except.ok none
    rw [hfail]
    rfl

/-- Witness for the amended C3: a raising client propagates its error, and the
non-success-response client yields ok None. -/
theorem C3_amended_witness :
    request_certificate erroringClient "www.example.com" []
        = Except.error (CAError.clientError "AccessDenied") ∧
    request_certificate rejectingClient "www.example.com" [] = Except.ok none :=
  ⟨(C3_amended_request_certificate erroringClient "www.example.com" []).1
      (CAError.clientError "AccessDenied") rfl,
   (C3_amended_request_certificate rejectingClient "www.example.com" []).2
      rejectResponse rfl rfl⟩

/-! ## Claim C1 -/

/-- Claim C1: the change set built from any validation-record list carries
exactly one change per unique (type, name, value) triple, keeps first-seen
order (its key list is the first-occurrence deduplication of the records' key
list, a duplicate-free sublist covering exactly the input keys), and every
change has action UPSERT and TTL 300. -/
theorem C1_change_set_dedup (records : List ResourceRecord) :
    (∀ c ∈ buildChangeSet records,
        c.action = "UPSERT" ∧ c.resourceRecordSet.rsTTL = 300) ∧
    (buildChangeSet records).map changeKey = dedupKeepFirst (records.map recordKey) ∧
    ((buildChangeSet records).map changeKey).Nodup ∧
    (∀ k, k ∈ (buildChangeSet records).map changeKey ↔ k ∈ records.map recordKey) ∧
    ((buildChangeSet records).map changeKey).Sublist (records.map recordKey) := by
  have hb : buildChangeSet records
      = dedupKeepFirst (records.map create_dns_record_set) :=
    remove_duplicate_upsert_records_eq _
  have hinj : ∀ x ∈ records.map create_dns_record_set,
      ∀ y ∈ records.map create_dns_record_set, changeKey x = changeKey y → x = y := by
    intro x hx y hy hk
    obtain ⟨r, _, rfl⟩ := List.mem_map.mp hx
    obtain ⟨r', _, rfl⟩ := List.mem_map.mp hy
    have hk' : recordKey r = recordKey r' := hk
    rw [recordKey, recordKey, Prod.mk.injEq, Prod.mk.injEq] at hk'
    obtain ⟨h1, h2, h3⟩ := hk'
    have h3' : r.rrValue = r'.rrValue := by simpa using h3
    rw [create_dns_record_set, create_dns_record_set,
      get_resource_record_data, get_resource_record_data]
    rw [h1, h2, h3']
  have hmapmap : (records.map create_dns_record_set).map changeKey
      = records.map recordKey := by
    rw [List.map_map]
    rfl
  have hkey : (buildChangeSet records).map changeKey
      = dedupKeepFirst (records.map recordKey) := by
    rw [hb, map_dedupKeepFirst changeKey _ hinj, hmapmap]
  refine ⟨?_, hkey, ?_, ?_, ?_⟩
  · intro c hc
    rw [hb, mem_dedupKeepFirst] at hc
    obtain ⟨r, _, rfl⟩ := List.mem_map.mp hc
    exact ⟨rfl, rfl⟩
  · rw [hkey]
    exact nodup_dedupKeepFirst _
  · intro k
    rw [hkey, mem_dedupKeepFirst]
  · rw [hkey]
    exact dedupKeepFirst_sublist _

/-- Witness for C1 on a record list with a duplicated record: the change-set
keys are the first-occurrence deduplication of the record keys. -/
theorem C1_witness :
    (buildChangeSet [validationRecordA, validationRecordA, validationRecordB]).map
        changeKey
      = dedupKeepFirst
          ([validationRecordA, validationRecordA, validationRecordB].map recordKey) :=
  (C1_change_set_dedup [validationRecordA, validationRecordA, validationRecordB]).2.1

/-! ## Claim C9 -/

/-- Best-effort submission: as long as every change's zone lookup succeeds,
every change in the list is submitted in order regardless of the responses,
the loop completes, and each non-success response is logged as a failure
(each success response as a created line). -/
theorem submitChanges_best_effort (extract : String → String × String)
    (zones : List HostedZone) (submit : String → Change → AWSResponse)
    (changes : List Change)
    (hz : ∀ c ∈ changes,
      get_hosted_zone_id extract zones c.resourceRecordSet.rsName ≠ none) :
    ((submitChanges extract zones submit changes).1.map (fun e => e.1) = changes) ∧
    (submitChanges extract zones submit changes).2 = true ∧
    (∀ e ∈ (submitChanges extract zones submit changes).1,
      response_succeeded e.2.1 = false → e.2.2 = R53Log.failed e.2.1) ∧
    (∀ e ∈ (submitChanges extract zones submit changes).1,
      response_succeeded e.2.1 = true
        → e.2.2 = R53Log.created e.1.resourceRecordSet.rsName) := by
  induction changes with
  | nil =>
    refine ⟨rfl, rfl, ?_, ?_⟩ <;>
      · intro e he hresp
        rw [submitChanges] at he
        exact absurd he (List.not_mem_nil e)
  | cons c rest ih =>
    have hc : get_hosted_zone_id extract zones c.resourceRecordSet.rsName ≠ none :=
      hz c (List.mem_cons_self c rest)
    obtain ⟨zid, hzid⟩ : ∃ zid,
        get_hosted_zone_id extract zones c.resourceRecordSet.rsName = some zid := by
      cases h : get_hosted_zone_id extract zones c.resourceRecordSet.rsName with
      | none => exact absurd h hc
      | some z => exact ⟨z, rfl⟩
    have hrest := ih (fun d hd => hz d (List.mem_cons_of_mem c hd))
    rw [submitChanges, hzid]
    refine ⟨?_, ?_, ?_, ?_⟩
    · simp only [List.map_cons, hrest.1]
    · exact hrest.2.1
    · intro e he hfail
      rcases List.mem_cons.mp he with heq | hmem
      · subst heq
        simp only [hfail]
        simp
      · exact hrest.2.2.1 e hmem hfail
    · intro e he hok
      rcases List.mem_cons.mp he with heq | hmem
      · subst heq
        simp only [hok]
        simp
      · exact hrest.2.2.2 e hmem hok

/-- Claim C9: in create_domain_validation_records, a non-success response for
one change's upsert is logged as a failure and does not halt the batch — every
change of the deduplicated sequence is still submitted and the loop completes,
whatever the DNS service answers. -/
theorem C9_failures_logged_batch_continues (extract : String → String × String)
    (zones : List HostedZone) (submit : String → Change → AWSResponse)
    (records : List ResourceRecord)
    (hz : ∀ c ∈ buildChangeSet records,
      get_hosted_zone_id extract zones c.resourceRecordSet.rsName ≠ none) :
    ((create_domain_validation_records extract zones submit records).1.map
        (fun e => e.1) = buildChangeSet records) ∧
    (create_domain_validation_records extract zones submit records).2 = true ∧
    (∀ e ∈ (create_domain_validation_records extract zones submit records).1,
      response_succeeded e.2.1 = false → e.2.2 = R53Log.failed e.2.1) ∧
    (∀ e ∈ (create_domain_validation_records extract zones submit records).1,
      response_succeeded e.2.1 = true
        → e.2.2 = R53Log.created e.1.resourceRecordSet.rsName) :=
  submitChanges_best_effort extract zones submit (buildChangeSet records) hz

/-- Witness for C9: two distinct validation records under example.com, a DNS
service that reports failure on every upsert; both changes are submitted and
the loop completes. -/
theorem C9_witness :
    ((create_domain_validation_records simple_tld_extract
        [⟨"example.com.", "/hostedzone/Z1EX"⟩] failingSubmit
        [validationRecordA, validationRecordB]).1.map (fun e => e.1)
      = buildChangeSet [validationRecordA, validationRecordB]) ∧
    (create_domain_validation_records simple_tld_extract
        [⟨"example.com.", "/hostedzone/Z1EX"⟩] failingSubmit
        [validationRecordA, validationRecordB]).2 = true :=
  ⟨(C9_failures_logged_batch_continues simple_tld_extract
      [⟨"example.com.", "/hostedzone/Z1EX"⟩] failingSubmit
      [validationRecordA, validationRecordB] (by decide)).1,
   (C9_failures_logged_batch_continues simple_tld_extract
      [⟨"example.com.", "/hostedzone/Z1EX"⟩] failingSubmit
      [validationRecordA, validationRecordB] (by decide)).2.1⟩

end ACM
